import Mathlib

/-!
Verification development for the NodeServer repository.

The repository contains two stock-data push servers built from the same
design: a WebSocket server (src/unnamed/part_000, second document, the
version the spec line references point at) and a Socket.IO server
(src/unnamed/part_001).  Both poll an upstream provider on a timer,
diff the fetched records against the previously stored snapshot and
broadcast the changed records to connected subscribers.

The definitions below are shallow embeddings of those JavaScript
functions.  Network responses are modelled as explicit values handed to
the embedded functions (an oracle), and the JavaScript event loop is
modelled by making the synchronous prefix of an async function one
atomic step.
-/

/- Insertion-ordered association list with the lookup and write
semantics shared by a JavaScript Map (get and set) and by indexing a
plain object: find returns the entry for the key, set replaces an
existing entry in place or appends a new one at the end. -/
namespace KV

variable {κ α : Type} [DecidableEq κ]

def find? : List (κ × α) → κ → Option α
  | [], _ => none
  | (k, v) :: rest, j => if k = j then some v else find? rest j

def set : List (κ × α) → κ → α → List (κ × α)
  | [], j, v => [(j, v)]
  | (k, w) :: rest, j, v =>
    if k = j then (j, v) :: rest else (k, w) :: set rest j v

end KV

/- Embedding of the WebSocket server, src/unnamed/part_000 (second
document, lines 324 to 675 of the file). -/
namespace ServerA

/-- Shape of one record of the upstream GetAllStockCompany response, as
read by the mapping code: dseCompanyCode may be absent (undefined). -/
structure UpstreamItem where
  dseCompanyCode : Option String
  ycp : Int
  mktValueChange : Int
  mktValChangePercentage : Int
deriving DecidableEq, Repr

/-- Shape of the mapped record built inside fetchAndBroadcastStockData
(lines 496 to 502). -/
structure MappedItem where
  trading_code : Option String
  last_trading_price : Int
  change : Int
  change_percent : Int
  indicator : String
deriving DecidableEq, Repr

/-- Field-by-field translation of the mapping at lines 496 to 502:
indicator is Up exactly when mktValueChange is nonnegative. -/
def mapItem (item : UpstreamItem) : MappedItem :=
  { trading_code := item.dseCompanyCode
    last_trading_price := item.ycp
    change := item.mktValueChange
    change_percent := item.mktValChangePercentage
    indicator := if 0 ≤ item.mktValueChange then "Up" else "Down" }

/-- The comparison at lines 508 to 512: a record counts as changed when
the key is absent from the previous map or any of the three tracked
fields differs by value.  A Map lookup miss is undefined, which is
falsy; a found record object is always truthy. -/
def itemChanged (prevMap : List (Option String × MappedItem)) (m : MappedItem) : Bool :=
  match KV.find? prevMap m.trading_code with
  | none => true
  | some p =>
    decide (p.last_trading_price ≠ m.last_trading_price ∨
      p.change ≠ m.change ∨ p.change_percent ≠ m.change_percent)

/-- The updates list accumulated by the forEach at lines 495 to 515: a
mapped record is pushed when isInitial is set or the record counts as
changed against the previous map.  The previous map used for every
comparison is the map from before the cycle. -/
def computeUpdates (isInitial : Bool)
    (prevMap : List (Option String × MappedItem)) :
    List UpstreamItem → List MappedItem
  | [] => []
  | item :: rest =>
    if isInitial || itemChanged prevMap (mapItem item) then
      mapItem item :: computeUpdates isInitial prevMap rest
    else
      computeUpdates isInitial prevMap rest

/-- The fresh map built by the same forEach (newStockMap.set at line
505), starting from an empty Map. -/
def buildMap (stockData : List UpstreamItem) : List (Option String × MappedItem) :=
  stockData.foldl (fun acc item => KV.set acc (mapItem item).trading_code (mapItem item)) []

/-- Insertion-order value view of a map, as Array.from(map.values()). -/
def values (m : List (Option String × MappedItem)) : List MappedItem :=
  m.map (fun p => p.2)

/-- Payload shape of a broadcast frame (lines 522 to 526). -/
structure WsMessage where
  type : String
  data : List MappedItem
  timestamp : String
deriving DecidableEq, Repr

/-- State transformer of fetchAndBroadcastStockData (lines 480 to 539)
acting on the module-level latestStockMap.  authOk abstracts the guard
at lines 482 to 488 (a token was cached or freshly obtained);
fetchResult is the value returned by getAllStockCompanies, none on any
of its failure paths.  On success the function builds newStockMap and
the updates list from the fetched data, swaps latestStockMap to
newStockMap, and emits one frame when there are updates or the cycle is
the initial one: type stock_data carrying the full map values when
initial, type stock_update carrying the updates otherwise. -/
def fetchAndBroadcastStockData (isInitial authOk : Bool)
    (fetchResult : Option (List UpstreamItem)) (now : String)
    (latestStockMap : List (Option String × MappedItem)) :
    List (Option String × MappedItem) × List WsMessage :=
  if !authOk then (latestStockMap, [])
  else
    match fetchResult with
    | none => (latestStockMap, [])
    | some stockData =>
      let newStockMap := buildMap stockData
      let updates := computeUpdates isInitial latestStockMap stockData
      if updates.length > 0 || isInitial then
        (newStockMap,
          [{ type := if isInitial then "stock_data" else "stock_update"
             data := if isInitial then values newStockMap else updates
             timestamp := now }])
      else (newStockMap, [])

/-- Outcome of one fetch attempt inside getAllStockCompanies, as seen
by the code at lines 429 to 475: truthy response data, falsy response
data, a thrown error carrying status 401, a thrown transient error
(ETIMEDOUT, ECONNRESET, ECONNABORTED), or any other thrown error. -/
inductive StockResp where
  | okData (d : List UpstreamItem)
  | noData
  | err401
  | transientErr
  | otherErr
deriving DecidableEq, Repr

/-- Result of a whole getAllStockCompanies run: the returned value, the
number of fetch attempts issued and the number of getIDLCAuthToken
re-authentication calls triggered by 401 responses. -/
structure FetchRun where
  result : Option (List UpstreamItem)
  fetches : Nat
  reauths : Nat
deriving DecidableEq, Repr

/-- The attempt loop of getAllStockCompanies (lines 429 to 476), with
the response to each attempt supplied by the oracle.  A 401 always
triggers a re-authentication (line 465) before the attempt bound is
consulted; running out of attempts or hitting a non-retriable error
returns null. -/
def fetchFrom (oracle : Nat → StockResp) (attempt : Nat) : Nat → FetchRun
  | 0 => ⟨none, 0, 0⟩
  | remaining + 1 =>
    match oracle attempt with
    | .okData d => ⟨some d, 1, 0⟩
    | .noData =>
      if remaining = 0 then ⟨none, 1, 0⟩
      else
        let r := fetchFrom oracle (attempt + 1) remaining
        ⟨r.result, r.fetches + 1, r.reauths⟩
    | .err401 =>
      if remaining = 0 then ⟨none, 1, 1⟩
      else
        let r := fetchFrom oracle (attempt + 1) remaining
        ⟨r.result, r.fetches + 1, r.reauths + 1⟩
    | .transientErr =>
      if remaining = 0 then ⟨none, 1, 0⟩
      else
        let r := fetchFrom oracle (attempt + 1) remaining
        ⟨r.result, r.fetches + 1, r.reauths⟩
    | .otherErr => ⟨none, 1, 0⟩

/-- getAllStockCompanies (lines 423 to 477): a missing token returns
null with no attempt, otherwise the loop runs with retryCount 5. -/
def getAllStockCompanies (tokenPresent : Bool) (oracle : Nat → StockResp) : FetchRun :=
  if tokenPresent then fetchFrom oracle 1 5 else ⟨none, 0, 0⟩

/-- Outcome of one auth attempt inside getIDLCAuthToken as seen by the
code at lines 381 to 418: resultCode 200 with a token, an explicit
rejection (other resultCode), a thrown transient error, or any other
thrown error. -/
inductive AuthResp where
  | okToken (t : String)
  | rejected
  | transientErr
  | otherErr
deriving DecidableEq, Repr

/-- Result of a getIDLCAuthToken run: the returned token, the number of
attempts issued, and the backoff delays (milliseconds) waited between
attempts, in order. -/
structure AuthRun where
  result : Option String
  attempts : Nat
  delays : List Nat
deriving DecidableEq, Repr

/-- The attempt loop of getIDLCAuthToken (lines 381 to 419).  A
rejection or transient error before the last attempt waits
5000 * attempt milliseconds and retries; on the last attempt both fall
through to return null; any other error returns null at once. -/
def authFrom (oracle : Nat → AuthResp) (attempt : Nat) : Nat → AuthRun
  | 0 => ⟨none, 0, []⟩
  | remaining + 1 =>
    match oracle attempt with
    | .okToken t => ⟨some t, 1, []⟩
    | .rejected =>
      if remaining = 0 then ⟨none, 1, []⟩
      else
        let r := authFrom oracle (attempt + 1) remaining
        ⟨r.result, r.attempts + 1, 5000 * attempt :: r.delays⟩
    | .transientErr =>
      if remaining = 0 then ⟨none, 1, []⟩
      else
        let r := authFrom oracle (attempt + 1) remaining
        ⟨r.result, r.attempts + 1, 5000 * attempt :: r.delays⟩
    | .otherErr => ⟨none, 1, []⟩

/-- getIDLCAuthToken (line 373): the loop runs with retryCount 5. -/
def getIDLCAuthToken (oracle : Nat → AuthResp) : AuthRun :=
  authFrom oracle 1 5

/-- Scheduler state: the number of fetch cycles currently in flight.
The cron callback (lines 653 to 656) starts fetchAndBroadcastStockData
without awaiting it and without consulting any flag. -/
structure SchedState where
  runningCycles : Nat
deriving DecidableEq, Repr

/-- One cron tick: the callback body unconditionally invokes the fetch,
so a new cycle starts regardless of how many are in flight.  The
boolean records that this tick performed a fetch. -/
def cronTick (st : SchedState) : SchedState × Bool :=
  ({ runningCycles := st.runningCycles + 1 }, true)

/-- Completion of one in-flight cycle. -/
def cycleComplete (st : SchedState) : SchedState :=
  { runningCycles := st.runningCycles - 1 }

inductive SchedEvent where
  | tick
  | complete
deriving DecidableEq, Repr

/-- Run a sequence of scheduler events, counting the fetches started. -/
def runSched : SchedState → List SchedEvent → SchedState × Nat
  | st, [] => (st, 0)
  | st, SchedEvent.tick :: rest =>
    let r := runSched (cronTick st).1 rest
    (r.1, r.2 + 1)
  | st, SchedEvent.complete :: rest => runSched (cycleComplete st) rest

def countTicks : List SchedEvent → Nat
  | [] => 0
  | SchedEvent.tick :: rest => countTicks rest + 1
  | SchedEvent.complete :: rest => countTicks rest

/-- One entry of the clients Set (lines 351, 623 to 650): the
connection identity and whether readyState is OPEN. -/
structure WsClient where
  cid : Nat
  readyOpen : Bool
deriving DecidableEq, Repr

/-- The broadcast loop (lines 528 to 532): every client whose
readyState is OPEN receives the frame; the registry is not modified. -/
def broadcastRecipients (reg : List WsClient) : List Nat :=
  (reg.filter (fun c => c.readyOpen)).map (fun c => c.cid)

/-- The close and error handlers (lines 641 to 649): the offending
client is deleted from the Set. -/
def removeClient (reg : List WsClient) (i : Nat) : List WsClient :=
  reg.filter (fun c => c.cid ≠ i)

end ServerA

/- Embedding of the Socket.IO server, src/unnamed/part_001. -/
namespace ServerB

/-- Shape of one record as handled by fetchStockData (lines 196 to
211): the two possible key fields may be absent or empty, and the
compared fields are read directly off the raw record. -/
structure Stock where
  dseCompanyCode : Option String
  trading_code : Option String
  last_trading_price : Int
  change : Int
  change_percent : Int
deriving DecidableEq, Repr

/-- JavaScript disjunction on possibly-absent strings: the left operand
wins unless it is falsy (absent or empty). -/
def jsOrStr : Option String → Option String → Option String
  | some a, b => if a = "" then b else some a
  | none, b => b

/-- The key computation and truthiness guard at lines 199 to 200: the
key is dseCompanyCode or trading_code, and a falsy key (absent or
empty) yields none, making the loop body return early. -/
def effKey (s : Stock) : Option String :=
  match jsOrStr s.dseCompanyCode s.trading_code with
  | none => none
  | some c => if c = "" then none else some c

/-- The comparison at lines 203 to 205: an update is detected when the
key is missing from previousStockData or last_trading_price or change
differs by value.  change_percent is not consulted. -/
def stockChanged (prev : Option Stock) (s : Stock) : Bool :=
  match prev with
  | none => true
  | some p =>
    decide (p.last_trading_price ≠ s.last_trading_price ∨ p.change ≠ s.change)

/-- The forEach at lines 198 to 211: records with a falsy key are
skipped; a changed record is written into previousStockData in place
(so later iterations compare against the already-updated object) and
pushed onto updates. -/
def processStocks : List (String × Stock) → List Stock → List (String × Stock) × List Stock
  | prev, [] => (prev, [])
  | prev, s :: rest =>
    match effKey s with
    | none => processStocks prev rest
    | some code =>
      if stockChanged (KV.find? prev code) s then
        let r := processStocks (KV.set prev code s) rest
        (r.1, s :: r.2)
      else processStocks prev rest

/-- Module-level state touched by fetchStockData: the snapshot store
previousStockData and the lastFetchTime timestamp. -/
structure ServerBState where
  previousStockData : List (String × Stock)
  lastFetchTime : Option String
deriving DecidableEq, Repr

/-- Terminal outcome of one fetchStockData invocation (lines 165 to
233): getAuthToken returned null (the thrown error is caught), the
request threw or the status was not 200 (caught), or a 200 response
carrying the normalized record list arrived. -/
inductive FetchOutcome where
  | noToken
  | httpError
  | okResp (data : List Stock)
deriving DecidableEq, Repr

/-- State transformer of fetchStockData: both failure paths reach the
catch block before previousStockData or lastFetchTime is touched and
return null; the success path runs the update loop and then sets
lastFetchTime. -/
def fetchStockData (outcome : FetchOutcome) (now : String) (st : ServerBState) :
    ServerBState × Option (List Stock) :=
  match outcome with
  | .noToken => (st, none)
  | .httpError => (st, none)
  | .okResp data =>
    let r := processStocks st.previousStockData data
    ({ previousStockData := r.1, lastFetchTime := some now }, some data)

/-- Status of one fetch attempt as consulted by the retry logic at
lines 180 to 188: 401, some other non-200 status, or 200 with data. -/
inductive FetchStatus where
  | status401
  | badStatus
  | okStatus (data : List Stock)
deriving DecidableEq, Repr

/-- The 401 retry recursion of fetchStockData (lines 180 to 184): a
401 clears the token and recursively calls fetchStockData again, with
no attempt counter; each element of the oracle list answers one fetch
attempt, and an exhausted oracle stands for a failed
re-authentication, which reaches the catch block with no further
fetch.  Returns the number of fetch attempts issued and the result. -/
def fetchRetryCount : List FetchStatus → Nat × Option (List Stock)
  | [] => (0, none)
  | r :: rest =>
    match r with
    | .status401 =>
      let t := fetchRetryCount rest
      (t.1 + 1, t.2)
    | .badStatus => (1, none)
    | .okStatus d => (1, some d)

/-- Session state read and written by getAuthToken (lines 34 to 37). -/
structure AuthState where
  authToken : Option String
  tokenExpiryTime : Option Nat
deriving DecidableEq, Repr

/-- The cache check at line 97: authToken, forceRefresh negated,
tokenExpiryTime and the expiry comparison, with JavaScript truthiness
on the two nullable values. -/
def cachedTokenValid (st : AuthState) (forceRefresh : Bool) (now : Nat) : Bool :=
  st.authToken.isSome && !forceRefresh &&
    (match st.tokenExpiryTime with
     | none => false
     | some e => decide (now < e))

/-- What the synchronous prefix of getAuthToken does before its first
suspension point: either return the cached token without any request,
or issue the upstream auth request (the first axios post at line 117,
reached with no intervening await, while authToken is only assigned
later, at line 131, after a response arrives). -/
inductive AuthStart where
  | cached (t : String)
  | requestIssued
deriving DecidableEq, Repr

def getAuthTokenStart (st : AuthState) (forceRefresh : Bool) (now : Nat) : AuthStart :=
  if cachedTokenValid st forceRefresh now then
    AuthStart.cached (st.authToken.getD "")
  else AuthStart.requestIssued

/-- n concurrent getAuthToken callers entering in the same event-loop
turn, before any auth response has arrived: each runs the synchronous
prefix against the same unmodified state, so each decides
independently whether to issue an upstream request.  Returns the total
number of upstream auth requests issued. -/
def burstAuthRequests (st : AuthState) (forceRefresh : Bool) (now : Nat) : Nat → Nat
  | 0 => 0
  | n + 1 =>
    (match getAuthTokenStart st forceRefresh now with
     | AuthStart.requestIssued => 1
     | AuthStart.cached _ => 0) + burstAuthRequests st forceRefresh now n

/-- One emitted Socket.IO event with its payload, as produced by the
broadcast at lines 215 to 218. -/
structure EmittedEvent where
  name : String
  payload : List Stock
deriving DecidableEq, Repr

/-- The broadcast step at lines 215 to 218: when the updates list is
nonempty, io.emit sends the bare updates array under the event name
stock-updates; nothing is sent otherwise. -/
def broadcastUpdates (updates : List Stock) : List EmittedEvent :=
  if updates.length > 0 then [{ name := "stock-updates", payload := updates }]
  else []

end ServerB

namespace KV

theorem find?_set_self {κ α : Type} [DecidableEq κ] (m : List (κ × α)) (j : κ) (v : α) :
    find? (set m j v) j = some v := by
  induction m with
  | nil => simp [set, find?]
  | cons p rest ih =>
    by_cases h : p.1 = j
    · simp [set, h, find?]
    · simp [set, h, find?, ih]

theorem find?_set_ne {κ α : Type} [DecidableEq κ] (m : List (κ × α)) (j j' : κ) (v : α)
    (h : j' ≠ j) :
    find? (set m j v) j' = find? m j' := by
  have hj : ¬ j = j' := fun hj => h hj.symm
  induction m with
  | nil => simp [set, find?, hj]
  | cons p rest ih =>
    by_cases hp : p.1 = j
    · have hp' : ¬ p.1 = j' := by rw [hp]; exact hj
      simp [set, hp, find?, hj, hp']
    · simp [set, hp, find?, ih]

end KV

namespace ServerA

theorem itemChanged_iff (prevMap : List (Option String × MappedItem)) (m : MappedItem) :
    itemChanged prevMap m = true ↔
      (KV.find? prevMap m.trading_code = none ∨
       ∃ p, KV.find? prevMap m.trading_code = some p ∧
         (p.last_trading_price ≠ m.last_trading_price ∨ p.change ≠ m.change ∨
          p.change_percent ≠ m.change_percent)) := by
  cases h : KV.find? prevMap m.trading_code with
  | none => simp [itemChanged, h]
  | some p => simp [itemChanged, h]

theorem computeUpdates_mem (prevMap : List (Option String × MappedItem))
    (cur : List UpstreamItem) (m : MappedItem) :
    m ∈ computeUpdates false prevMap cur ↔
      ∃ item ∈ cur, mapItem item = m ∧ itemChanged prevMap m = true := by
  induction cur with
  | nil => simp [computeUpdates]
  | cons item rest ih =>
    simp only [computeUpdates, Bool.false_or]
    by_cases h : itemChanged prevMap (mapItem item) = true
    · simp only [if_pos h, List.mem_cons]
      constructor
      · rintro (rfl | hm)
        · exact ⟨item, Or.inl rfl, rfl, h⟩
        · rcases ih.1 hm with ⟨t, ht, hmap, hc⟩
          exact ⟨t, Or.inr ht, hmap, hc⟩
      · rintro ⟨t, ht, hmap, hc⟩
        rcases ht with rfl | ht'
        · exact Or.inl hmap.symm
        · exact Or.inr (ih.2 ⟨t, ht', hmap, hc⟩)
    · simp only [if_neg h]
      rw [ih]
      constructor
      · rintro ⟨t, ht, hmap, hc⟩
        exact ⟨t, List.mem_cons_of_mem _ ht, hmap, hc⟩
      · rintro ⟨t, ht, hmap, hc⟩
        rcases List.mem_cons.1 ht with rfl | ht'
        · subst hmap; exact absurd hc h
        · exact ⟨t, ht', hmap, hc⟩

theorem authFrom_attempts_le (oracle : Nat → AuthResp) :
    ∀ (r a : Nat), (authFrom oracle a r).attempts ≤ r := by
  intro r
  induction r with
  | zero => intro a; simp [authFrom]
  | succ remaining ih =>
    intro a
    cases h : oracle a with
    | okToken t => simp [authFrom, h]
    | rejected =>
      by_cases hr : remaining = 0
      · simp [authFrom, h, hr]
      · simpa [authFrom, h, hr] using ih (a + 1)
    | transientErr =>
      by_cases hr : remaining = 0
      · simp [authFrom, h, hr]
      · simpa [authFrom, h, hr] using ih (a + 1)
    | otherErr => simp [authFrom, h]

theorem authFrom_attempts_pos (oracle : Nat → AuthResp) :
    ∀ (r a : Nat), 1 ≤ r → 1 ≤ (authFrom oracle a r).attempts := by
  intro r
  induction r with
  | zero => intro a h; cases h
  | succ remaining ih =>
    intro a _
    cases h : oracle a with
    | okToken t => simp [authFrom, h]
    | rejected =>
      by_cases hr : remaining = 0
      · simp [authFrom, h, hr]
      · simp [authFrom, h, hr]
    | transientErr =>
      by_cases hr : remaining = 0
      · simp [authFrom, h, hr]
      · simp [authFrom, h, hr]
    | otherErr => simp [authFrom, h]

theorem authFrom_delays (oracle : Nat → AuthResp) :
    ∀ (r a : Nat), (authFrom oracle a r).delays =
      (List.range' a ((authFrom oracle a r).attempts - 1)).map (fun k => 5000 * k) := by
  intro r
  induction r with
  | zero => intro a; simp [authFrom]
  | succ remaining ih =>
    intro a
    cases h : oracle a with
    | okToken t => simp [authFrom, h]
    | rejected =>
      by_cases hr : remaining = 0
      · simp [authFrom, h, hr]
      · have hpos : 1 ≤ (authFrom oracle (a + 1) remaining).attempts :=
          authFrom_attempts_pos oracle remaining (a + 1) (Nat.one_le_iff_ne_zero.2 hr)
        have hsub : (authFrom oracle (a + 1) remaining).attempts + 1 - 1 =
            ((authFrom oracle (a + 1) remaining).attempts - 1) + 1 := by omega
        simp only [authFrom, h, if_neg hr]
        rw [hsub, List.range'_succ, List.map_cons, ih (a + 1)]
    | transientErr =>
      by_cases hr : remaining = 0
      · simp [authFrom, h, hr]
      · have hpos : 1 ≤ (authFrom oracle (a + 1) remaining).attempts :=
          authFrom_attempts_pos oracle remaining (a + 1) (Nat.one_le_iff_ne_zero.2 hr)
        have hsub : (authFrom oracle (a + 1) remaining).attempts + 1 - 1 =
            ((authFrom oracle (a + 1) remaining).attempts - 1) + 1 := by omega
        simp only [authFrom, h, if_neg hr]
        rw [hsub, List.range'_succ, List.map_cons, ih (a + 1)]
    | otherErr => simp [authFrom, h]

theorem authFrom_exhaust (oracle : Nat → AuthResp)
    (h : ∀ i, oracle i = AuthResp.transientErr ∨ oracle i = AuthResp.rejected) :
    ∀ (r a : Nat), 1 ≤ r →
      (authFrom oracle a r).result = none ∧ (authFrom oracle a r).attempts = r := by
  intro r
  induction r with
  | zero => intro a hr; cases hr
  | succ remaining ih =>
    intro a _
    by_cases hr : remaining = 0
    · rcases h a with hh | hh <;> simp [authFrom, hh, hr]
    · have := ih (a + 1) (Nat.one_le_iff_ne_zero.2 hr)
      rcases h a with hh | hh <;>
        simp [authFrom, hh, hr, this.1, this.2]

end ServerA

namespace ServerB

theorem processStocks_updates_congr :
    ∀ (cur : List Stock) (p1 p2 : List (String × Stock)),
      (∀ s ∈ cur, ∀ c, effKey s = some c → KV.find? p1 c = KV.find? p2 c) →
      (processStocks p1 cur).2 = (processStocks p2 cur).2 := by
  intro cur
  induction cur with
  | nil => intro p1 p2 _; rfl
  | cons s rest ih =>
    intro p1 p2 h
    have hrest : ∀ t ∈ rest, ∀ c, effKey t = some c → KV.find? p1 c = KV.find? p2 c :=
      fun t ht c hc => h t (List.mem_cons_of_mem _ ht) c hc
    cases hk : effKey s with
    | none =>
      simp only [processStocks, hk]
      exact ih p1 p2 hrest
    | some code =>
      have hfind : KV.find? p1 code = KV.find? p2 code :=
        h s (List.mem_cons_self _ _) code hk
      simp only [processStocks, hk, hfind]
      by_cases hc : stockChanged (KV.find? p2 code) s = true
      · have hset : ∀ t ∈ rest, ∀ c, effKey t = some c →
            KV.find? (KV.set p1 code s) c = KV.find? (KV.set p2 code s) c := by
          intro t ht c hcc
          by_cases hceq : c = code
          · subst hceq; rw [KV.find?_set_self, KV.find?_set_self]
          · rw [KV.find?_set_ne _ _ _ _ hceq, KV.find?_set_ne _ _ _ _ hceq]
            exact hrest t ht c hcc
        simp [hc, ih _ _ hset]
      · simp [hc, ih p1 p2 hrest]

theorem processStocks_mem_updates :
    ∀ (cur : List Stock) (prev : List (String × Stock)),
      (cur.filterMap effKey).Nodup →
      ∀ s : Stock, (s ∈ (processStocks prev cur).2 ↔
        (s ∈ cur ∧ ∃ c, effKey s = some c ∧ stockChanged (KV.find? prev c) s = true)) := by
  intro cur
  induction cur with
  | nil => intro prev _ s; simp [processStocks]
  | cons s0 rest ih =>
    intro prev hnd s
    cases hk : effKey s0 with
    | none =>
      have hnd' : (rest.filterMap effKey).Nodup := by
        simpa [List.filterMap_cons, hk] using hnd
      simp only [processStocks, hk]
      rw [ih prev hnd' s]
      constructor
      · rintro ⟨hs, hc⟩; exact ⟨List.mem_cons_of_mem _ hs, hc⟩
      · rintro ⟨hs, c, hce, hcc⟩
        rcases List.mem_cons.1 hs with rfl | hs'
        · rw [hk] at hce; cases hce
        · exact ⟨hs', c, hce, hcc⟩
    | some code =>
      have hnd2 : code ∉ rest.filterMap effKey ∧ (rest.filterMap effKey).Nodup := by
        have : (code :: rest.filterMap effKey).Nodup := by
          simpa [List.filterMap_cons, hk] using hnd
        exact List.nodup_cons.1 this
      by_cases hch : stockChanged (KV.find? prev code) s0 = true
      · have hcongr : (processStocks (KV.set prev code s0) rest).2 =
            (processStocks prev rest).2 := by
          apply processStocks_updates_congr
          intro t ht c hc
          have hcne : c ≠ code := by
            intro heq
            exact hnd2.1 (List.mem_filterMap.2 ⟨t, ht, by rw [hc, heq]⟩)
          exact KV.find?_set_ne _ _ _ _ hcne
        simp only [processStocks, hk, hch, if_true, List.mem_cons]
        rw [hcongr, ih prev hnd2.2 s]
        constructor
        · rintro (rfl | ⟨hs, c, hce, hcc⟩)
          · exact ⟨Or.inl rfl, code, hk, hch⟩
          · exact ⟨Or.inr hs, c, hce, hcc⟩
        · rintro ⟨hs, c, hce, hcc⟩
          rcases hs with rfl | hs'
          · exact Or.inl rfl
          · exact Or.inr ⟨hs', c, hce, hcc⟩
      · simp only [processStocks, hk]
        rw [if_neg hch]
        rw [ih prev hnd2.2 s]
        constructor
        · rintro ⟨hs, hc⟩; exact ⟨List.mem_cons_of_mem _ hs, hc⟩
        · rintro ⟨hs, c, hce, hcc⟩
          rcases List.mem_cons.1 hs with rfl | hs'
          · rw [hk] at hce
            injection hce with hcode
            subst hcode
            exact absurd hcc hch
          · exact ⟨hs', c, hce, hcc⟩

theorem processStocks_stale_key :
    ∀ (cur : List Stock) (prev : List (String × Stock)) (k : String) (v : Stock),
      KV.find? prev k = some v → (∀ s ∈ cur, effKey s ≠ some k) →
      KV.find? (processStocks prev cur).1 k = some v := by
  intro cur
  induction cur with
  | nil => intro prev k v hf _; simpa [processStocks] using hf
  | cons s0 rest ih =>
    intro prev k v hf h
    have hrest : ∀ s ∈ rest, effKey s ≠ some k :=
      fun t ht => h t (List.mem_cons_of_mem _ ht)
    cases hk : effKey s0 with
    | none =>
      simp only [processStocks, hk]
      exact ih prev k v hf hrest
    | some code =>
      have hkc : k ≠ code := by
        intro heq
        exact h s0 (List.mem_cons_self _ _) (by rw [hk, heq])
      by_cases hch : stockChanged (KV.find? prev code) s0 = true
      · simp only [processStocks, hk, hch, if_true]
        exact ih (KV.set prev code s0) k v
          (by rw [KV.find?_set_ne _ _ _ _ hkc]; exact hf) hrest
      · simp only [processStocks, hk, hch, if_false]
        exact ih prev k v hf hrest

theorem processStocks_updates_keyed :
    ∀ (cur : List Stock) (prev : List (String × Stock)),
      ∀ s ∈ (processStocks prev cur).2, effKey s ≠ none := by
  intro cur
  induction cur with
  | nil => intro prev s hs; simp [processStocks] at hs
  | cons s0 rest ih =>
    intro prev s hs
    cases hk : effKey s0 with
    | none =>
      rw [processStocks, hk] at hs
      exact ih prev s hs
    | some code =>
      by_cases hch : stockChanged (KV.find? prev code) s0 = true
      · rw [processStocks] at hs
        simp only [hk, hch, if_true, List.mem_cons] at hs
        rcases hs with rfl | hs'
        · rw [hk]; simp
        · exact ih (KV.set prev code s0) s hs'
      · rw [processStocks] at hs
        simp only [hk, hch, if_false] at hs
        exact ih prev s hs

theorem processStocks_keyless_not_stored :
    ∀ (cur : List Stock) (prev : List (String × Stock)) (k : String) (s : Stock),
      effKey s = none →
      KV.find? (processStocks prev cur).1 k = some s → KV.find? prev k = some s := by
  intro cur
  induction cur with
  | nil => intro prev k s _ hf; simpa [processStocks] using hf
  | cons s0 rest ih =>
    intro prev k s hkey hf
    cases hk : effKey s0 with
    | none =>
      rw [processStocks, hk] at hf
      exact ih prev k s hkey hf
    | some code =>
      by_cases hch : stockChanged (KV.find? prev code) s0 = true
      · rw [processStocks] at hf
        simp only [hk, hch, if_true] at hf
        have hstep := ih (KV.set prev code s0) k s hkey hf
        by_cases hkc : k = code
        · subst hkc
          rw [KV.find?_set_self] at hstep
          injection hstep with hss
          subst hss
          rw [hk] at hkey
          cases hkey
        · rwa [KV.find?_set_ne _ _ _ _ hkc] at hstep
      · rw [processStocks] at hf
        simp only [hk, hch, if_false] at hf
        exact ih prev k s hkey hf

end ServerB

namespace ServerB

theorem stockChanged_iff (o : Option Stock) (s : Stock) :
    stockChanged o s = true ↔
      (o = none ∨ ∃ p, o = some p ∧
        (p.last_trading_price ≠ s.last_trading_price ∨ p.change ≠ s.change)) := by
  cases o with
  | none => simp [stockChanged]
  | some p => simp [stockChanged]

end ServerB

/-- C1: membership in the computed diff.  In the WebSocket server
(part_000) the updates list contains exactly the mapped records of the
current fetch whose key is absent from the previous map or which differ
from the stored record on price, change or change-percent.  In the
Socket.IO server (part_001), under pairwise-distinct effective keys,
the updates list contains exactly the records of the current fetch with
a truthy key that are absent from the store or differ on price or
change: change-percent is not a tracked field there.  In both, a record
equal on every tracked field never appears, and keys present only in
the previous snapshot are never reported. -/
theorem diff_engine_membership :
    (∀ (prevMap : List (Option String × ServerA.MappedItem))
       (cur : List ServerA.UpstreamItem) (m : ServerA.MappedItem),
       m ∈ ServerA.computeUpdates false prevMap cur ↔
         ∃ item ∈ cur, ServerA.mapItem item = m ∧
           (KV.find? prevMap m.trading_code = none ∨
            ∃ p, KV.find? prevMap m.trading_code = some p ∧
              (p.last_trading_price ≠ m.last_trading_price ∨ p.change ≠ m.change ∨
               p.change_percent ≠ m.change_percent))) ∧
    (∀ (prev : List (String × ServerB.Stock)) (cur : List ServerB.Stock)
       (s : ServerB.Stock), (cur.filterMap ServerB.effKey).Nodup →
       (s ∈ (ServerB.processStocks prev cur).2 ↔
         s ∈ cur ∧ ∃ c, ServerB.effKey s = some c ∧
           (KV.find? prev c = none ∨
            ∃ p, KV.find? prev c = some p ∧
              (p.last_trading_price ≠ s.last_trading_price ∨ p.change ≠ s.change)))) := by
  constructor
  · intro prevMap cur m
    rw [ServerA.computeUpdates_mem]
    constructor
    · rintro ⟨item, hi, hm, hc⟩
      exact ⟨item, hi, hm, (ServerA.itemChanged_iff prevMap m).1 hc⟩
    · rintro ⟨item, hi, hm, hc⟩
      exact ⟨item, hi, hm, (ServerA.itemChanged_iff prevMap m).2 hc⟩
  · intro prev cur s hnd
    rw [ServerB.processStocks_mem_updates cur prev hnd s]
    constructor
    · rintro ⟨hs, c, hce, hcc⟩
      exact ⟨hs, c, hce, (ServerB.stockChanged_iff (KV.find? prev c) s).1 hcc⟩
    · rintro ⟨hs, c, hce, hcc⟩
      exact ⟨hs, c, hce, (ServerB.stockChanged_iff (KV.find? prev c) s).2 hcc⟩

/-- C1 witness: a fresh record with key AAA is reported by the
Socket.IO diff when the store is empty, via the characterization. -/
theorem diff_engine_membership_witness :
    (⟨some "AAA", none, 10, 5, 7⟩ : ServerB.Stock) ∈
      (ServerB.processStocks [] [⟨some "AAA", none, 10, 5, 7⟩]).2 :=
  (diff_engine_membership.2 [] [⟨some "AAA", none, 10, 5, 7⟩]
      ⟨some "AAA", none, 10, 5, 7⟩ (by decide)).2
    ⟨List.mem_singleton.2 rfl, "AAA", by decide, Or.inl rfl⟩

/-- C1 counterexample: in the Socket.IO server a record that differs
from the stored record only on change-percent (a tracked field per the
claim) has its key present in the store, equal price and equal change,
yet the diff reports nothing, so the diff does not return every record
differing on a tracked field. -/
theorem diff_change_percent_only_not_reported :
    (ServerB.processStocks [("AAA", ⟨some "AAA", none, 10, 5, 1⟩)]
        [⟨some "AAA", none, 10, 5, 2⟩]).2 = [] ∧
    (⟨some "AAA", none, 10, 5, 2⟩ : ServerB.Stock).change_percent ≠
      (⟨some "AAA", none, 10, 5, 1⟩ : ServerB.Stock).change_percent ∧
    (⟨some "AAA", none, 10, 5, 2⟩ : ServerB.Stock).last_trading_price =
      (⟨some "AAA", none, 10, 5, 1⟩ : ServerB.Stock).last_trading_price ∧
    (⟨some "AAA", none, 10, 5, 2⟩ : ServerB.Stock).change =
      (⟨some "AAA", none, 10, 5, 1⟩ : ServerB.Stock).change ∧
    ServerB.effKey ⟨some "AAA", none, 10, 5, 2⟩ = some "AAA" ∧
    KV.find? [("AAA", (⟨some "AAA", none, 10, 5, 1⟩ : ServerB.Stock))] "AAA" =
      some ⟨some "AAA", none, 10, 5, 1⟩ := by
  decide

/-- C2: getAuthToken has no single-flight guard.  Its cache check and
its first upstream request happen in one synchronous prefix, and the
token is only assigned after a response arrives, so n concurrent
callers entering while the session is unauthenticated each issue their
own upstream auth request (n requests in total), while n callers
entering with a valid cached token issue none. -/
theorem burst_auth_request_count :
    (∀ (n now : Nat) (force : Bool) (st : ServerB.AuthState), st.authToken = none →
       ServerB.burstAuthRequests st force now n = n) ∧
    (∀ (n now : Nat) (force : Bool) (st : ServerB.AuthState),
       ServerB.cachedTokenValid st force now = true →
       ServerB.burstAuthRequests st force now n = 0) := by
  constructor
  · intro n now force st h
    induction n with
    | zero => rfl
    | succ k ih =>
      have hcv : ServerB.cachedTokenValid st force now = false := by
        simp [ServerB.cachedTokenValid, h]
      have hstart : ServerB.getAuthTokenStart st force now =
          ServerB.AuthStart.requestIssued := by
        simp [ServerB.getAuthTokenStart, hcv]
      simp only [ServerB.burstAuthRequests, hstart]
      rw [ih]
      omega
  · intro n now force st h
    induction n with
    | zero => rfl
    | succ k ih =>
      have hstart : ServerB.getAuthTokenStart st force now =
          ServerB.AuthStart.cached (st.authToken.getD "") := by
        simp [ServerB.getAuthTokenStart, h]
      simp only [ServerB.burstAuthRequests, hstart]
      rw [ih]

/-- C2 witness: three unauthenticated concurrent callers issue three
requests; three callers with a valid cached token issue none. -/
theorem burst_auth_request_count_witness :
    ServerB.burstAuthRequests ⟨none, none⟩ false 0 3 = 3 ∧
    ServerB.burstAuthRequests ⟨some "tok", some 10⟩ false 0 3 = 0 :=
  ⟨burst_auth_request_count.1 3 0 false ⟨none, none⟩ rfl,
   burst_auth_request_count.2 3 0 false ⟨some "tok", some 10⟩ (by decide)⟩

/-- C2 counterexample: two callers invoking token acquisition
concurrently while the session is unauthenticated issue two upstream
auth requests, not exactly one. -/
theorem concurrent_auth_issues_two_requests :
    ServerB.burstAuthRequests ⟨none, none⟩ false 0 2 = 2 ∧
    ServerB.burstAuthRequests ⟨none, none⟩ false 0 2 ≠ 1 := by
  decide

/-- C3: 401 handling.  In the Socket.IO server a 401 triggers a
re-authentication and an unbounded recursive retry: after k consecutive
401 responses the fetch is attempted a (k+1)-th time.  In the WebSocket
server every 401 triggers a re-authentication and the loop keeps
retrying up to its bound: with every attempt answered 401, five fetch
attempts and five re-authentications happen and the call returns null;
no AuthRejected error value exists on either path. -/
theorem retry_after_401_behavior :
    (∀ (k : Nat) (d : List ServerB.Stock),
       ServerB.fetchRetryCount
         (List.replicate k ServerB.FetchStatus.status401 ++
           [ServerB.FetchStatus.okStatus d]) = (k + 1, some d)) ∧
    ServerA.getAllStockCompanies true (fun _ => ServerA.StockResp.err401) =
      ⟨none, 5, 5⟩ := by
  constructor
  · intro k d
    induction k with
    | zero => rfl
    | succ n ih =>
      have hsplit : List.replicate (n + 1) ServerB.FetchStatus.status401 ++
          [ServerB.FetchStatus.okStatus d] =
          ServerB.FetchStatus.status401 ::
            (List.replicate n ServerB.FetchStatus.status401 ++
              [ServerB.FetchStatus.okStatus d]) := by
        simp [List.replicate_succ]
      rw [hsplit]
      simp only [ServerB.fetchRetryCount, ih]
  · rfl

/-- C3 counterexample: after two consecutive 401 responses the
Socket.IO client issues a third fetch attempt, contradicting the claim
that exactly one retried fetch happens and no third attempt is made;
the eventual outcome is the data, not an AuthRejected failure. -/
theorem third_fetch_attempt_after_401 :
    ServerB.fetchRetryCount
        [ServerB.FetchStatus.status401, ServerB.FetchStatus.status401,
         ServerB.FetchStatus.okStatus []] = (3, some []) := by
  decide

/-- C4: the cron callback contains no busy flag: over any event
sequence the number of fetch cycles started equals the number of ticks,
so a tick firing while a cycle is in flight still starts a fetch. -/
theorem every_tick_starts_fetch :
    ∀ (evs : List ServerA.SchedEvent) (st : ServerA.SchedState),
      (ServerA.runSched st evs).2 = ServerA.countTicks evs := by
  intro evs
  induction evs with
  | nil => intro st; rfl
  | cons e rest ih =>
    intro st
    cases e with
    | tick => simp [ServerA.runSched, ServerA.countTicks, ih]
    | complete => simp [ServerA.runSched, ServerA.countTicks, ih]

/-- C4 counterexample: with one cycle already in flight, a tick still
performs a fetch (count 1, not 0) and leaves two cycles running
concurrently. -/
theorem tick_during_running_cycle_fetches :
    ServerA.runSched ⟨1⟩ [ServerA.SchedEvent.tick] = (⟨2⟩, 1) := by
  decide

/-- C5: snapshot update discipline.  The WebSocket server replaces its
snapshot map wholesale: after any successful cycle the stored map is
exactly the freshly built map of the fetched data, independent of the
prior store.  The Socket.IO server instead writes records into its
existing previousStockData object key by key: any stored entry whose
key is not touched by the current fetch survives the cycle
unchanged. -/
theorem snapshot_replacement_behavior :
    (∀ (isInitial : Bool) (st : List (Option String × ServerA.MappedItem))
       (data : List ServerA.UpstreamItem) (now : String),
       (ServerA.fetchAndBroadcastStockData isInitial true (some data) now st).1 =
         ServerA.buildMap data) ∧
    (∀ (prev : List (String × ServerB.Stock)) (cur : List ServerB.Stock)
       (k : String) (v : ServerB.Stock),
       KV.find? prev k = some v → (∀ s ∈ cur, ServerB.effKey s ≠ some k) →
       KV.find? (ServerB.processStocks prev cur).1 k = some v) := by
  constructor
  · intro isInitial st data now
    cases h : (decide ((ServerA.computeUpdates isInitial st data).length > 0) ||
        isInitial) <;>
      simp [ServerA.fetchAndBroadcastStockData, h]
  · exact fun prev cur k v hf h => ServerB.processStocks_stale_key cur prev k v hf h

/-- C5 witness: an entry under key BBB in the Socket.IO store survives
a cycle whose fetched data does not mention BBB. -/
theorem snapshot_replacement_behavior_witness :
    KV.find? (ServerB.processStocks [("BBB", ⟨some "BBB", none, 1, 1, 1⟩)]
        [⟨some "AAA", none, 2, 2, 2⟩]).1 "BBB" =
      some ⟨some "BBB", none, 1, 1, 1⟩ :=
  snapshot_replacement_behavior.2 [("BBB", ⟨some "BBB", none, 1, 1, 1⟩)]
    [⟨some "AAA", none, 2, 2, 2⟩] "BBB" ⟨some "BBB", none, 1, 1, 1⟩ rfl (by decide)

/-- C5 counterexample: after a Socket.IO cycle fetching only AAA over a
store holding BBB, the store still contains the BBB entry and differs
from the mapping freshly built from the current fetch, so the store was
mutated in place rather than replaced with a newly built mapping. -/
theorem stale_key_survives_cycle :
    (ServerB.processStocks [("BBB", ⟨some "BBB", none, 1, 1, 1⟩)]
        [⟨some "AAA", none, 2, 2, 2⟩]).1 ≠
      (ServerB.processStocks [] [⟨some "AAA", none, 2, 2, 2⟩]).1 ∧
    KV.find? (ServerB.processStocks [("BBB", ⟨some "BBB", none, 1, 1, 1⟩)]
        [⟨some "AAA", none, 2, 2, 2⟩]).1 "BBB" =
      some ⟨some "BBB", none, 1, 1, 1⟩ ∧
    (∀ s ∈ [(⟨some "AAA", none, 2, 2, 2⟩ : ServerB.Stock)],
      ServerB.effKey s ≠ some "BBB") := by
  decide

/-- C6: shapes of the messages actually produced.  Every frame built by
a WebSocket-server cycle has type stock_data (initial full snapshot,
data carrying the values of the new map) or stock_update (incremental,
data carrying the updates list), with the cycle timestamp; the
Socket.IO server emits the bare updates array under the event name
stock-updates. -/
theorem broadcast_message_shape :
    (∀ (isInitial : Bool) (st : List (Option String × ServerA.MappedItem))
       (data : List ServerA.UpstreamItem) (now : String) (msg : ServerA.WsMessage),
       msg ∈ (ServerA.fetchAndBroadcastStockData isInitial true (some data) now st).2 →
         msg.type = (if isInitial then "stock_data" else "stock_update") ∧
         msg.timestamp = now ∧
         msg.data = (if isInitial then ServerA.values (ServerA.buildMap data)
                     else ServerA.computeUpdates false st data)) ∧
    (∀ (updates : List ServerB.Stock) (ev : ServerB.EmittedEvent),
       ev ∈ ServerB.broadcastUpdates updates →
         ev.name = "stock-updates" ∧ ev.payload = updates) := by
  constructor
  · intro isInitial st data now msg hmsg
    cases isInitial with
    | false =>
      by_cases hlen : (ServerA.computeUpdates false st data).length > 0
      · simp [ServerA.fetchAndBroadcastStockData, hlen] at hmsg
        simp [hmsg]
      · simp [ServerA.fetchAndBroadcastStockData, hlen] at hmsg
    | true =>
      simp [ServerA.fetchAndBroadcastStockData] at hmsg
      simp [hmsg]
  · intro updates ev hev
    by_cases h : updates.length > 0
    · simp [ServerB.broadcastUpdates, h] at hev
      simp [hev]
    · simp [ServerB.broadcastUpdates, h] at hev

/-- C6 witness: the single frame of an initial WebSocket cycle over one
item carries type stock_data, the cycle timestamp and the full map
values. -/
theorem broadcast_message_shape_witness :
    ({ type := "stock_data"
       data := ServerA.values (ServerA.buildMap [⟨some "AAA", 1, 2, 3⟩])
       timestamp := "T" } : ServerA.WsMessage).type =
        (if true then "stock_data" else "stock_update") ∧
    ({ type := "stock_data"
       data := ServerA.values (ServerA.buildMap [⟨some "AAA", 1, 2, 3⟩])
       timestamp := "T" } : ServerA.WsMessage).timestamp = "T" ∧
    ({ type := "stock_data"
       data := ServerA.values (ServerA.buildMap [⟨some "AAA", 1, 2, 3⟩])
       timestamp := "T" } : ServerA.WsMessage).data =
      (if true then ServerA.values (ServerA.buildMap [⟨some "AAA", 1, 2, 3⟩])
       else ServerA.computeUpdates false [] [⟨some "AAA", 1, 2, 3⟩]) :=
  broadcast_message_shape.1 true [] [⟨some "AAA", 1, 2, 3⟩] "T" _ (by decide)

/-- C6 counterexample: the type fields actually emitted are stock_data
and stock_update, not full and update. -/
theorem broadcast_type_strings :
    ((ServerA.fetchAndBroadcastStockData true true (some [⟨some "AAA", 1, 2, 3⟩])
        "T" []).2.map ServerA.WsMessage.type = ["stock_data"]) ∧
    ((ServerA.fetchAndBroadcastStockData false true (some [⟨some "AAA", 1, 2, 3⟩])
        "T" []).2.map ServerA.WsMessage.type = ["stock_update"]) ∧
    "stock_data" ≠ "full" ∧ "stock_update" ≠ "update" := by
  decide

/-- C7: a subscriber whose send fails or whose connection closes is
removed by the error and close handlers and then never appears among
broadcast recipients; any other subscriber receives a broadcast over
the pruned registry exactly when it received it over the original
registry, and removal is idempotent. -/
theorem failed_subscriber_isolated (reg : List ServerA.WsClient) (i j : Nat)
    (hij : j ≠ i) :
    i ∉ ServerA.broadcastRecipients (ServerA.removeClient reg i) ∧
    (j ∈ ServerA.broadcastRecipients (ServerA.removeClient reg i) ↔
      j ∈ ServerA.broadcastRecipients reg) ∧
    ServerA.removeClient (ServerA.removeClient reg i) i =
      ServerA.removeClient reg i := by
  refine ⟨?_, ?_, ?_⟩
  · intro hmem
    simp only [ServerA.broadcastRecipients, ServerA.removeClient, List.mem_map,
      List.mem_filter, decide_eq_true_eq] at hmem
    obtain ⟨c, ⟨⟨_, hne⟩, _⟩, hcid⟩ := hmem
    exact hne hcid
  · simp only [ServerA.broadcastRecipients, ServerA.removeClient, List.mem_map,
      List.mem_filter, decide_eq_true_eq]
    constructor
    · rintro ⟨c, ⟨⟨hc, _⟩, hopen⟩, hcid⟩
      exact ⟨c, ⟨hc, hopen⟩, hcid⟩
    · rintro ⟨c, ⟨hc, hopen⟩, hcid⟩
      exact ⟨c, ⟨⟨hc, by rw [hcid]; exact hij⟩, hopen⟩, hcid⟩
  · simp [ServerA.removeClient, List.filter_filter]

/-- C7 witness: removing subscriber 1 from a two-subscriber registry
leaves subscriber 2 receiving broadcasts while subscriber 1 receives
none, and removing again changes nothing. -/
theorem failed_subscriber_isolated_witness :
    1 ∉ ServerA.broadcastRecipients (ServerA.removeClient [⟨1, true⟩, ⟨2, true⟩] 1) ∧
    (2 ∈ ServerA.broadcastRecipients (ServerA.removeClient [⟨1, true⟩, ⟨2, true⟩] 1) ↔
      2 ∈ ServerA.broadcastRecipients [⟨1, true⟩, ⟨2, true⟩]) ∧
    ServerA.removeClient (ServerA.removeClient [⟨1, true⟩, ⟨2, true⟩] 1) 1 =
      ServerA.removeClient [⟨1, true⟩, ⟨2, true⟩] 1 :=
  failed_subscriber_isolated [⟨1, true⟩, ⟨2, true⟩] 1 2 (by decide)

/-- C8: getIDLCAuthToken is bounded: no run exceeds 5 attempts, the
backoff delays waited between attempts are exactly 5000 times the
attempt number (5000, 10000, ...), and when every attempt fails with a
transient error or an explicit rejection the call performs exactly 5
attempts and returns a failure (null) instead of retrying forever. -/
theorem auth_retry_bounded (oracle : Nat → ServerA.AuthResp) :
    (ServerA.getIDLCAuthToken oracle).attempts ≤ 5 ∧
    (ServerA.getIDLCAuthToken oracle).delays =
      (List.range' 1 ((ServerA.getIDLCAuthToken oracle).attempts - 1)).map
        (fun k => 5000 * k) ∧
    ((∀ i, oracle i = ServerA.AuthResp.transientErr ∨
        oracle i = ServerA.AuthResp.rejected) →
      (ServerA.getIDLCAuthToken oracle).result = none ∧
      (ServerA.getIDLCAuthToken oracle).attempts = 5) := by
  refine ⟨ServerA.authFrom_attempts_le oracle 5 1,
    ServerA.authFrom_delays oracle 5 1, ?_⟩
  intro h
  exact ServerA.authFrom_exhaust oracle h 5 1 (by norm_num)

/-- C8 witness: with every attempt timing out, authentication stops
after exactly 5 attempts with a null result. -/
theorem auth_retry_bounded_witness :
    (ServerA.getIDLCAuthToken (fun _ => ServerA.AuthResp.transientErr)).result =
      none ∧
    (ServerA.getIDLCAuthToken (fun _ => ServerA.AuthResp.transientErr)).attempts =
      5 :=
  (auth_retry_bounded (fun _ => ServerA.AuthResp.transientErr)).2.2
    (fun _ => Or.inl rfl)

/-- C9: a failed poll cycle changes no stored state.  In the WebSocket
server, an auth failure or a null fetch result leaves latestStockMap
untouched; in the Socket.IO server, a missing token or a thrown or
non-200 fetch leaves previousStockData and lastFetchTime exactly as
they were and returns null. -/
theorem failed_cycle_preserves_state :
    (∀ (isInitial : Bool) (fr : Option (List ServerA.UpstreamItem)) (now : String)
       (st : List (Option String × ServerA.MappedItem)),
       (ServerA.fetchAndBroadcastStockData isInitial false fr now st).1 = st ∧
       (ServerA.fetchAndBroadcastStockData isInitial true none now st).1 = st) ∧
    (∀ (now : String) (st : ServerB.ServerBState),
       ServerB.fetchStockData ServerB.FetchOutcome.noToken now st = (st, none) ∧
       ServerB.fetchStockData ServerB.FetchOutcome.httpError now st = (st, none)) :=
  ⟨fun _ _ _ _ => ⟨rfl, rfl⟩, fun _ _ => ⟨rfl, rfl⟩⟩

/-- C10: a fetched record whose key fields are both absent or empty is
skipped by the Socket.IO update loop: it never enters the updates list
that gets broadcast, and it appears in the post-cycle store only where
the pre-cycle store already held it, so it is never newly stored. -/
theorem keyless_record_skipped (prev : List (String × ServerB.Stock))
    (cur : List ServerB.Stock) (s : ServerB.Stock)
    (h1 : s.dseCompanyCode = none ∨ s.dseCompanyCode = some "")
    (h2 : s.trading_code = none ∨ s.trading_code = some "") :
    s ∉ (ServerB.processStocks prev cur).2 ∧
    (∀ k, KV.find? (ServerB.processStocks prev cur).1 k = some s →
      KV.find? prev k = some s) := by
  have hkey : ServerB.effKey s = none := by
    rcases h1 with h1 | h1 <;> rcases h2 with h2 | h2 <;>
      simp [ServerB.effKey, ServerB.jsOrStr, h1, h2]
  exact ⟨fun hmem => ServerB.processStocks_updates_keyed cur prev s hmem hkey,
    fun k => ServerB.processStocks_keyless_not_stored cur prev k s hkey⟩

/-- C10 witness: a record with no key fields fetched over an empty
store is not broadcast and not stored. -/
theorem keyless_record_skipped_witness :
    (⟨none, none, 0, 0, 0⟩ : ServerB.Stock) ∉
      (ServerB.processStocks [] [⟨none, none, 0, 0, 0⟩]).2 :=
  (keyless_record_skipped [] [⟨none, none, 0, 0, 0⟩] ⟨none, none, 0, 0, 0⟩
    (Or.inl rfl) (Or.inl rfl)).1
